import Mathlib

/-!
# Verification of the Backlog/GitHub PR synchronization action

Shallow embedding of the annotation parser, the marker codec and the two
synchronization workflows of the action, translated from the TypeScript
sources (`src/parser.ts` / `src/github.ts` / `src/index.ts`, the
PR-description-marker variant cited by the specification).

Text is modelled as `List Char`.  The JavaScript regular expressions are
embedded as executable scanners whose behaviour is derived from the
backtracking semantics of the concrete patterns (analysed pattern by
pattern in the doc comments below).
-/

/-- Text is a list of characters. -/
abbrev Str := List Char

/-- Coerce a Lean string literal to the text type. -/
def str (s : String) : Str := s.data

/-- Decimal digit, the JS regex class `\d`. -/
def isDigitCh (c : Char) : Bool := 48 ≤ c.toNat && c.toNat ≤ 57

/-- ASCII letter.  With the `i` flag the JS class `[A-Z]` matches exactly
the ASCII letters of either case (legacy canonicalisation maps no
non-ASCII character onto an ASCII one). -/
def isKeyLetter (c : Char) : Bool :=
  (65 ≤ c.toNat && c.toNat ≤ 90) || (97 ≤ c.toNat && c.toNat ≤ 122)

/-- The JS class `[A-Z0-9_]` under the `i` flag; this is also exactly the
word-character class `\w` used by the `\b` assertions. -/
def isKeyAlpha (c : Char) : Bool := isKeyLetter c || isDigitCh c || c == '_'

/-- The JS class `\s` (whitespace), listed codepoint by codepoint. -/
def isSpaceCh (c : Char) : Bool :=
  c == ' ' || c == '\t' || c == '\n' || c == '\r' ||
  c.toNat == 0xb || c.toNat == 0xc || c.toNat == 0xa0 || c.toNat == 0x1680 ||
  (0x2000 ≤ c.toNat && c.toNat ≤ 0x200a) || c.toNat == 0x2028 ||
  c.toNat == 0x2029 || c.toNat == 0x202f || c.toNat == 0x205f ||
  c.toNat == 0x3000 || c.toNat == 0xfeff

/-- Model of `String.prototype.toUpperCase` restricted to ASCII.  The parser only
ever upper-cases regex matches, whose characters are ASCII
(letters/digits/underscore/hyphen), where the JS function acts exactly
like this ASCII mapping. -/
def toUpperCh (c : Char) : Char :=
  if 97 ≤ c.toNat && c.toNat ≤ 122 then Char.ofNat (c.toNat - 32) else c

/-- Model of `String.prototype.toLowerCase` restricted to ASCII (see `toUpperCh`). -/
def toLowerCh (c : Char) : Char :=
  if 65 ≤ c.toNat && c.toNat ≤ 90 then Char.ofNat (c.toNat + 32) else c

/-- Upper-case a text. -/
def toUpperStr (s : Str) : Str := s.map toUpperCh

/-- Lower-case a text. -/
def toLowerStr (s : Str) : Str := s.map toLowerCh

/-- Model of `String.prototype.trim` (same whitespace class as `\s`). -/
def jsTrim (s : Str) : Str :=
  ((s.dropWhile isSpaceCh).reverse.dropWhile isSpaceCh).reverse

/-- Test that `needle` occurs at the very start of `hay`. -/
def hasPre : Str → Str → Bool
  | [], _ => true
  | _ :: _, [] => false
  | a :: as, b :: bs => (b == a) && hasPre as bs

/-- Model of `String.prototype.includes`: `needle` occurs somewhere in `hay`. -/
def containsSub : Str → Str → Bool
  | [], needle => hasPre needle []
  | h :: t, needle => hasPre needle (h :: t) || containsSub t needle

/-!
## The issue-key pattern

Source (`parser.ts`):
`ISSUE_KEY_PATTERN = '[A-Z][A-Z0-9_]{0,24}-\\d{1,6}'`, used by
`extractIssueKeys` inside `(?<![A-Z0-9_])PATTERN(?!\d)` with flags `gi`.

Backtracking analysis of the core pattern at a fixed start position:
`[A-Z0-9_]{0,24}` is greedy, and since `-` is not in the class the greedy
run is the whole maximal `[A-Z0-9_]` run after the initial letter; any
backtracked (shorter) choice puts a class character where `-` is required,
so the run must have length ≤ 24 and be followed by `-`.  `\d{1,6}` is
greedy and `(?!\d)` rejects a following digit, so the match succeeds
exactly when the maximal digit run after `-` has length between 1 and 6
(if it is longer, every choice of 1–6 digits is followed by a digit and
the lookahead fails for all of them).
-/

/-- Match `[A-Z][A-Z0-9_]{0,24}-\d{1,6}(?!\d)` (case-insensitive) at the
start of `cs`; returns the matched text and the remaining text. -/
def matchKeyCore (cs : Str) : Option (Str × Str) :=
  match cs with
  | [] => none
  | c :: rest =>
    if isKeyLetter c then
      let ks := rest.takeWhile isKeyAlpha
      let r1 := rest.dropWhile isKeyAlpha
      if ks.length ≤ 24 then
        match r1 with
        | '-' :: r2 =>
          let ds := r2.takeWhile isDigitCh
          let r3 := r2.dropWhile isDigitCh
          if 1 ≤ ds.length && ds.length ≤ 6 then
            some (c :: (ks ++ '-' :: ds), r3)
          else none
        | _ => none
      else none
    else none

/-- The negative lookbehind `(?<![A-Z0-9_])` blocks a match start right
after a word-class character (`prev` is the character preceding the
current scan position, `none` at the start of the text). -/
def prevBlocks : Option Char → Bool
  | none => false
  | some p => isKeyAlpha p

/-- Scan of `exec` with the `g` flag for the issue-key regex: at each
position, if the lookbehind allows it, try the core pattern; on a match
emit the upper-cased matched text and resume after it, otherwise advance
one character.  The scanner walks one character at a time; after a match
of length `n` the next `n - 1` positions are inside the match and are
skipped via the first (`skip`) argument, which keeps the recursion
structural and the previous-character tracking uniform. -/
def scanKeysAux : Nat → Option Char → Str → List Str
  | _, _, [] => []
  | skip + 1, _, c :: rest => scanKeysAux skip (some c) rest
  | 0, prev, c :: rest =>
    if prevBlocks prev then scanKeysAux 0 (some c) rest
    else
      match matchKeyCore (c :: rest) with
      | some (m, _) => toUpperStr m :: scanKeysAux (m.length - 1) (some c) rest
      | none => scanKeysAux 0 (some c) rest

/-- The JS `Set`-based deduplication of `extractIssueKeys`: adding a key
already present is a no-op, insertion order is preserved. -/
def dedupKeysAux (seen : List Str) : List Str → List Str
  | [] => []
  | k :: t =>
    if seen.contains k then dedupKeysAux seen t
    else k :: dedupKeysAux (seen ++ [k]) t

/-- Model of `extractIssueKeys` (`parser.ts`): scan the text for all issue-key
matches, upper-case each, deduplicate via a `Set` (first occurrence wins)
and return them in insertion order.  The `Set` never influences the scan
itself, so the loop is the scan followed by the insertion-order
deduplication of the match list. -/
def extractIssueKeys (text : Str) : List Str :=
  if text = [] then []
  else dedupKeysAux [] (scanKeysAux 0 none text)

example : extractIssueKeys (str "proj-123 and PROJ-123") = [str "PROJ-123"] := by decide
example : extractIssueKeys (str "PROJ-1234567") = [] := by decide
example : extractIssueKeys (str "1PROJ-123") = [] := by decide
example : extractIssueKeys (str "This PR fixes PROJ-123 and PROJ-456") =
    [str "PROJ-123", str "PROJ-456"] := by decide

/-!
## The annotation pattern

Source (`parser.ts`): `buildAnnotationPattern` builds
`\b(fix|fixes|fixed|resolve|resolves|resolved|close|closes|closed)\s*[:：]?\s*#?(KEY)\b`
with flags `gi`, where `KEY` is the issue-key core pattern.

Backtracking analysis: the alternation is ordered, and a keyword
alternative that matches is abandoned for the next one only if the rest
of the pattern fails afterwards.  The separator part
`\s*[:：]?\s*#?` is deterministic under greediness: whitespace, the
colons and `#` are pairwise disjoint character classes and none of them
can start `KEY` (which begins with a letter), so backtracking into the
separators can never turn a failure into a success.  In `KEY`, the class
run and digit run are maximal as in `matchKeyCore`; the final `\b`
succeeds exactly when the character after the digits is not a word
character (for a longer digit run every greedy choice is followed by a
digit, i.e. a word character, so the match fails).
-/

/-- Model of `FIX_KEYWORDS` (`parser.ts`), lower-case canonical forms. -/
def FIX_KEYWORDS : List Str :=
  [str "fix", str "fixes", str "fixed", str "resolve", str "resolves", str "resolved"]

/-- Model of `CLOSE_KEYWORDS` (`parser.ts`). -/
def CLOSE_KEYWORDS : List Str := [str "close", str "closes", str "closed"]

/-- Model of `ALL_KEYWORDS` (`parser.ts`), in the alternation order of the regex. -/
def ALL_KEYWORDS : List Str := FIX_KEYWORDS ++ CLOSE_KEYWORDS

/-- Model of `AnnotationAction` (`types.ts`): a closed two-variant tag. -/
inductive AnnAction where
  | fix
  | close
deriving DecidableEq, Repr

/-- Model of `ParsedAnnotation` (`types.ts`). -/
structure ParsedAnnot where
  issueKey : Str
  action : AnnAction
  originalText : Str
deriving DecidableEq, Repr

/-- Model of `getActionFromKeyword` (`parser.ts`): membership of the lower-cased
keyword in the two families, defaulting to fix. -/
def getActionFromKeyword (kw : Str) : AnnAction :=
  if FIX_KEYWORDS.contains kw then .fix
  else if CLOSE_KEYWORDS.contains kw then .close
  else .fix

/-- Case-insensitive test that `kw` (given lower-case) starts `cs`. -/
def hasPreCI : Str → Str → Bool
  | [], _ => true
  | _ :: _, [] => false
  | k :: ks, c :: cs => (toLowerCh c == k) && hasPreCI ks cs

/-- Match `KEY\b`, i.e. `[A-Z][A-Z0-9_]{0,24}-\d{1,6}\b`
(case-insensitive) at the start of `cs` (see the backtracking analysis
above). -/
def matchKeyAnn (cs : Str) : Option (Str × Str) :=
  match cs with
  | [] => none
  | c :: rest =>
    if isKeyLetter c then
      let ks := rest.takeWhile isKeyAlpha
      let r1 := rest.dropWhile isKeyAlpha
      if ks.length ≤ 24 then
        match r1 with
        | [] => none
        | c2 :: r2 =>
          if c2 = '-' then
            let ds := r2.takeWhile isDigitCh
            let r3 := r2.dropWhile isDigitCh
            if 1 ≤ ds.length && ds.length ≤ 6 then
              match r3 with
              | [] => some (c :: (ks ++ '-' :: ds), r3)
              | c3 :: _ =>
                if isKeyAlpha c3 then none
                else some (c :: (ks ++ '-' :: ds), r3)
            else none
          else none
      else none
    else none

/-- Try one keyword alternative at the start of `cs`: the keyword
(case-insensitively), then `\s*[:：]?\s*#?`, then `KEY\b`.  Returns
(matched text, keyword as matched, issue key as matched, rest). -/
def matchAnnKw (kw : Str) (cs : Str) : Option (Str × Str × Str × Str) :=
  if hasPreCI kw cs then
    let kwTxt := cs.take kw.length
    let r0 := cs.drop kw.length
    let r1 := r0.dropWhile isSpaceCh
    let r2 := match r1 with
      | c :: t => if c = ':' ∨ c = '：' then t else r1
      | [] => r1
    let r3 := r2.dropWhile isSpaceCh
    let r4 := match r3 with
      | c :: t => if c = '#' then t else r3
      | [] => r3
    match matchKeyAnn r4 with
    | some (key, rest) => some (cs.take (cs.length - rest.length), kwTxt, key, rest)
    | none => none
  else none

/-- Ordered alternation over the keyword list. -/
def tryKeywords : List Str → Str → Option (Str × Str × Str × Str)
  | [], _ => none
  | kw :: kws, cs =>
    match matchAnnKw kw cs with
    | some r => some r
    | none => tryKeywords kws cs

/-- Try the whole annotation pattern (minus the leading `\b`, which the
scanner checks) at the start of `cs`. -/
def matchAnnAt (cs : Str) : Option (Str × Str × Str × Str) :=
  tryKeywords ALL_KEYWORDS cs

/-- Build the `ParsedAnnotation` for a match, as the loop body of
`parseAnnotations` does: upper-case the key, map the lower-cased keyword
to an action, trim the matched text. -/
def mkAnn (orig kwTxt key : Str) : ParsedAnnot :=
  { issueKey := toUpperStr key
    action := getActionFromKeyword (toLowerStr kwTxt)
    originalText := jsTrim orig }

/-- Scan of `exec` with the `g` flag for the annotation regex.  The
leading `\b` holds at a position exactly when the previous character is
not a word character, because every keyword starts with a letter (at a
true boundary in front of a non-word character no keyword can match, so
skipping such positions is sound).  As in `scanKeysAux`, positions inside
a match are skipped through the structural `skip` argument. -/
def scanAnnsAux : Nat → Option Char → Str → List ParsedAnnot
  | _, _, [] => []
  | skip + 1, _, c :: rest => scanAnnsAux skip (some c) rest
  | 0, prev, c :: rest =>
    if prevBlocks prev then scanAnnsAux 0 (some c) rest
    else
      match matchAnnAt (c :: rest) with
      | some (orig, kwTxt, key, _) =>
        mkAnn orig kwTxt key :: scanAnnsAux (orig.length - 1) (some c) rest
      | none => scanAnnsAux 0 (some c) rest

/-- The `seenIssueKeys` set of `parseAnnotations`: drop a match whose
normalized key was already seen (first occurrence wins). -/
def dedupAnnsAux (seen : List Str) : List ParsedAnnot → List ParsedAnnot
  | [] => []
  | a :: t =>
    if seen.contains a.issueKey then dedupAnnsAux seen t
    else a :: dedupAnnsAux (seen ++ [a.issueKey]) t

/-- Model of `parseAnnotations` (`parser.ts`): scan the text for annotation
matches and keep the first match for each normalized issue key.  The
`seenIssueKeys` check only drops an already-consumed match and never
influences the scan position, so the loop is the scan followed by the
first-wins deduplication. -/
def parseAnnotations (text : Str) : List ParsedAnnot :=
  if text = [] then []
  else dedupAnnsAux [] (scanAnnsAux 0 none text)

example : parseAnnotations (str "fixes PROJ-123") =
    [⟨str "PROJ-123", .fix, str "fixes PROJ-123"⟩] := by decide
example : parseAnnotations (str "closes PROJ-456") =
    [⟨str "PROJ-456", .close, str "closes PROJ-456"⟩] := by decide
example : parseAnnotations (str "fix: PROJ-123") =
    [⟨str "PROJ-123", .fix, str "fix: PROJ-123"⟩] := by decide
example : parseAnnotations (str "fixes #PROJ-123") =
    [⟨str "PROJ-123", .fix, str "fixes #PROJ-123"⟩] := by decide
example : parseAnnotations (str "FIXES proj-123") =
    [⟨str "PROJ-123", .fix, str "FIXES proj-123"⟩] := by decide
example : parseAnnotations (str "fixes PROJ-123\nresolves PROJ-123") =
    [⟨str "PROJ-123", .fix, str "fixes PROJ-123"⟩] := by decide
example : parseAnnotations (str "fixes PROJ-123\ncloses PROJ-456") =
    [⟨str "PROJ-123", .fix, str "fixes PROJ-123"⟩,
     ⟨str "PROJ-456", .close, str "closes PROJ-456"⟩] := by decide
example : parseAnnotations (str "This is a normal PR description") = [] := by decide
example : parseAnnotations (str "fixture PROJ-123") = [] := by decide
example : parseAnnotations (str "fixture-123") =
    [⟨str "TURE-123", .fix, str "fixture-123"⟩] := by decide
example : parseAnnotations (str "fixes MY_PROJECT-123") =
    [⟨str "MY_PROJECT-123", .fix, str "fixes MY_PROJECT-123"⟩] := by decide

/-!
## Marker codec and URL builder (`github.ts`)
-/

/-- Model of `buildBacklogLinkMarker` (`github.ts`). -/
def buildBacklogLinkMarker (issueKey : Str) : Str :=
  str "<!-- backlog-link:" ++ issueKey ++ str " -->"

/-- Model of `buildMergeMarker` (`github.ts`). -/
def buildMergeMarker (issueKey : Str) : Str :=
  str "<!-- backlog-merged:" ++ issueKey ++ str " -->"

/-- Model of `host.replace(/^https?:\/\//, '')`: strip one leading protocol. -/
def stripProtocol (h : Str) : Str :=
  if hasPre (str "https://") h then h.drop 8
  else if hasPre (str "http://") h then h.drop 7
  else h

/-- Model of `buildBacklogIssueUrl` (`github.ts`). -/
def buildBacklogIssueUrl (host issueKey : Str) : Str :=
  str "https://" ++ stripProtocol host ++ str "/view/" ++ issueKey

/-- The spec's abstract operation kind for tracking markers. -/
inductive OperationKind where
  | linkPosted
  | mergeProcessed
deriving DecidableEq, Repr

/-- The spec's `buildMarker(operationKind, issueKey)`, dispatching to the
two source builders. -/
def buildMarker : OperationKind → Str → Str
  | .linkPosted, k => buildBacklogLinkMarker k
  | .mergeProcessed, k => buildMergeMarker k

/-- The spec's `containsMarker(text, operationKind, issueKey)`: the
`body.includes(marker)` check of `hasBacklogLink` / `hasMergeMarker`. -/
def containsMarker (text : Str) (op : OperationKind) (issueKey : Str) : Bool :=
  containsSub text (buildMarker op issueKey)

/-!
## The synchronization orchestrator (`index.ts`, description-marker variant)

The two external clients are modelled by an environment: `ok n` tells
whether the `n`-th network call of the run succeeds at the transport
level, `hasIssue k` tells whether the tracker knows issue `k`.  A run
threads a state (the PR description, which the GitHub client reads and
writes, plus the number of network calls made) and records a trace of
events: each attempted network call with its success flag, plus the
`core.warning` / `core.error` reports emitted by the per-item catch
blocks.
-/

/-- Observable events of a run: the network calls of the two clients and
the per-item failure reports. -/
inductive BCall where
  | getPRBody (pr : Nat)
  | updatePRBody (pr : Nat) (body : Str)
  | issueExists (key : Str)
  | getIssue (key : Str)
  | addComment (key : Str) (content : Str)
  | updateIssueStatus (key : Str) (statusId : Option Int)
  | warnMsg (key : Str)
  | errorMsg (key : Str)
deriving DecidableEq, Repr

/-- A trace entry: the event and whether it succeeded. -/
abbrev Entry := BCall × Bool

/-- The external world: transport success per call index and issue
existence in the tracker. -/
structure Env where
  ok : Nat → Bool
  hasIssue : Str → Bool

/-- The state a run threads: current PR description and number of
network calls made so far. -/
structure SyncState where
  prBody : Str
  nCalls : Nat
deriving Repr

/-- Perform one network call: it succeeds when the transport is up and
the semantic precondition `succ` holds; the attempt is always traced. -/
def netCall (env : Env) (s : SyncState) (c : BCall) (succ : Bool) :
    SyncState × Bool × List Entry :=
  let ok := env.ok s.nCalls && succ
  ({ s with nCalls := s.nCalls + 1 }, ok, [(c, ok)])

/-- Model of `GitHubClient.getPRBody`: read the PR description. -/
def callGetPRBody (env : Env) (s : SyncState) (pr : Nat) :
    SyncState × Option Str × List Entry :=
  let (s1, ok, es) := netCall env s (.getPRBody pr) true
  (s1, if ok then some s1.prBody else none, es)

/-- Model of `GitHubClient.updatePRBody`: overwrite the PR description. -/
def callUpdatePRBody (env : Env) (s : SyncState) (pr : Nat) (body : Str) :
    SyncState × Bool × List Entry :=
  let (s1, ok, es) := netCall env s (.updatePRBody pr body) true
  (if ok then { s1 with prBody := body } else s1, ok, es)

/-- Model of `BacklogClient.issueExists`. -/
def callIssueExists (env : Env) (s : SyncState) (key : Str) :
    SyncState × Option Bool × List Entry :=
  let (s1, ok, es) := netCall env s (.issueExists key) true
  (s1, if ok then some (env.hasIssue key) else none, es)

/-- Model of `BacklogClient.getIssue`: throws when the issue does not exist. -/
def callGetIssue (env : Env) (s : SyncState) (key : Str) :
    SyncState × Bool × List Entry :=
  netCall env s (.getIssue key) (env.hasIssue key)

/-- Model of `BacklogClient.addComment`. -/
def callAddComment (env : Env) (s : SyncState) (key content : Str) :
    SyncState × Bool × List Entry :=
  netCall env s (.addComment key content) true

/-- Model of `BacklogClient.updateIssueStatus`. -/
def callUpdateIssueStatus (env : Env) (s : SyncState) (key : Str) (statusId : Option Int) :
    SyncState × Bool × List Entry :=
  netCall env s (.updateIssueStatus key statusId) true

/-- Model of `GitHubClient.hasBacklogLink` (`github.ts`): read the description
and check it for the link marker (`none` = the read threw). -/
def hasBacklogLinkM (env : Env) (s : SyncState) (pr : Nat) (issueKey : Str) :
    SyncState × Option Bool × List Entry :=
  match callGetPRBody env s pr with
  | (s1, none, es) => (s1, none, es)
  | (s1, some body, es) =>
    (s1, some (containsSub body (buildBacklogLinkMarker issueKey)), es)

/-- Model of `GitHubClient.addBacklogLinkToDescription` (`github.ts`): re-read the
description, skip when the marker is already there, otherwise append the
link section (which embeds the marker) and write the description back.
Result: `none` = a call threw, `some added?` as in the source. -/
def addBacklogLinkToDescription (env : Env) (s : SyncState) (pr : Nat)
    (backlogHost issueKey : Str) : SyncState × Option Bool × List Entry :=
  match callGetPRBody env s pr with
  | (s1, none, es) => (s1, none, es)
  | (s1, some body, es) =>
    let marker := buildBacklogLinkMarker issueKey
    if containsSub body marker then (s1, some false, es)
    else
      let backlogUrl := buildBacklogIssueUrl backlogHost issueKey
      let linkSection := str "\n\n---\n🔗 Backlog: [" ++ issueKey ++ str "](" ++
        backlogUrl ++ str ")\n" ++ marker
      match callUpdatePRBody env s1 pr (body ++ linkSection) with
      | (s2, true, es2) => (s2, some true, es ++ es2)
      | (s2, false, es2) => (s2, none, es ++ es2)

/-- Model of `GitHubClient.hasMergeMarker` (`github.ts`). -/
def hasMergeMarkerM (env : Env) (s : SyncState) (pr : Nat) (issueKey : Str) :
    SyncState × Option Bool × List Entry :=
  match callGetPRBody env s pr with
  | (s1, none, es) => (s1, none, es)
  | (s1, some body, es) =>
    (s1, some (containsSub body (buildMergeMarker issueKey)), es)

/-- Model of `GitHubClient.addMergeMarkerToDescription` (`github.ts`): re-read the
description, return silently when the merge marker is present, otherwise
append the status section (which embeds the marker).  `some ()` = the
method returned, `none` = a call threw. -/
def addMergeMarkerToDescription (env : Env) (s : SyncState) (pr : Nat)
    (backlogHost issueKey statusLabel : Str) :
    SyncState × Option Unit × List Entry :=
  match callGetPRBody env s pr with
  | (s1, none, es) => (s1, none, es)
  | (s1, some body, es) =>
    let marker := buildMergeMarker issueKey
    if containsSub body marker then (s1, some (), es)
    else
      let backlogUrl := buildBacklogIssueUrl backlogHost issueKey
      let statusSection := str "\n✅ [" ++ issueKey ++ str "](" ++ backlogUrl ++
        str ") → " ++ statusLabel ++ str "\n" ++ marker
      match callUpdatePRBody env s1 pr (body ++ statusSection) with
      | (s2, true, es2) => (s2, some (), es ++ es2)
      | (s2, false, es2) => (s2, none, es ++ es2)

/-- Model of `PullRequestInfo` (`types.ts` / `getPullRequestInfo`). -/
structure PullRequestInfo where
  number : Nat
  title : Str
  body : Str
  url : Str
  isDraft : Bool
  merged : Bool

/-- Report of the catch block of the workflow-A loop (`core.warning`),
also used for the not-found warning. -/
def logWarn (s : SyncState) (key : Str) : SyncState × List Entry :=
  (s, [(.warnMsg key, true)])

/-- Report of the catch block of `processAnnotation` (`core.error`). -/
def logError (s : SyncState) (key : Str) : SyncState × List Entry :=
  (s, [(.errorMsg key, true)])

/-- The comment posted to a referenced issue when a PR is opened
(`handlePullRequestOpened`). -/
def openedComment (pr : PullRequestInfo) : Str :=
  str "GitHub Pull Request がオープンされました:\n" ++ pr.url ++ str "\n\n**" ++
    pr.title ++ str "**"

/-- The body of the `for (const issueKey of issueKeys)` loop of
`handlePullRequestOpened` (`index.ts`): marker check, existence check,
tracker comment, marker write; any throw is caught per key and reported
as a warning. -/
def processKeyA (env : Env) (pr : PullRequestInfo) (backlogHost : Str)
    (s : SyncState) (issueKey : Str) : SyncState × List Entry :=
  match hasBacklogLinkM env s pr.number issueKey with
  | (s1, none, es) =>
    let (s2, es2) := logWarn s1 issueKey
    (s2, es ++ es2)
  | (s1, some true, es) => (s1, es)
  | (s1, some false, es) =>
    match callIssueExists env s1 issueKey with
    | (s2, none, es2) =>
      let (s3, es3) := logWarn s2 issueKey
      (s3, es ++ es2 ++ es3)
    | (s2, some false, es2) =>
      let (s3, es3) := logWarn s2 issueKey
      (s3, es ++ es2 ++ es3)
    | (s2, some true, es2) =>
      match callAddComment env s2 issueKey (openedComment pr) with
      | (s3, false, es3) =>
        let (s4, es4) := logWarn s3 issueKey
        (s4, es ++ es2 ++ es3 ++ es4)
      | (s3, true, es3) =>
        match addBacklogLinkToDescription env s3 pr.number backlogHost issueKey with
        | (s4, none, es4) =>
          let (s5, es5) := logWarn s4 issueKey
          (s5, es ++ es2 ++ es3 ++ es4 ++ es5)
        | (s4, some _, es4) => (s4, es ++ es2 ++ es3 ++ es4)

/-- Fold a per-item step over a batch, concatenating the traces. -/
def runBatch {α : Type} (step : SyncState → α → SyncState × List Entry)
    (s : SyncState) : List α → SyncState × List Entry
  | [] => (s, [])
  | a :: t =>
    let (s1, es) := step s a
    let (s2, es2) := runBatch step s1 t
    (s2, es ++ es2)

/-- Model of `handlePullRequestOpened` (`index.ts`): extract the issue keys from
title and body and run the per-key loop. -/
def handlePullRequestOpened (env : Env) (pr : PullRequestInfo)
    (backlogHost : Str) (s : SyncState) : SyncState × List Entry :=
  let textToSearch := pr.title ++ str "\n" ++ pr.body
  let issueKeys := extractIssueKeys textToSearch
  runBatch (processKeyA env pr backlogHost) s issueKeys

/-- Model of `BacklogConfig` (`types.ts`). -/
structure BacklogConfig where
  host : Str
  apiKey : Str
deriving DecidableEq

/-- Model of `ActionConfig` (`types.ts`).  The status ids are `parseInt` results,
with `none` standing for JavaScript `NaN`. -/
structure ActionConfig where
  backlog : BacklogConfig
  githubToken : Str
  addComment : Bool
  updateStatusOnMerge : Bool
  fixStatusId : Option Int
  closeStatusId : Option Int
deriving DecidableEq

/-- The status label used by `processAnnotation`. -/
def actionLabel : AnnAction → Str
  | .fix => str "処理済み"
  | .close => str "完了"

/-- The confirmation comment of `processAnnotation`. -/
def mergedComment (pr : PullRequestInfo) (label : Str) : Str :=
  str "GitHub Pull Request がマージされました:\n" ++ pr.url ++
    str "\n\nステータスを「" ++ label ++ str "」に更新しました。"

/-- Model of `processAnnotation` (`index.ts`): merge-marker check, issue fetch,
status update (fix → configured fix status id, close → configured close
status id), confirmation comment, merge-marker write; any throw is
caught and reported as an error for this annotation only. -/
def processAnnot (env : Env) (pr : PullRequestInfo) (config : ActionConfig)
    (s : SyncState) (a : ParsedAnnot) : SyncState × List Entry :=
  let issueKey := a.issueKey
  match hasMergeMarkerM env s pr.number issueKey with
  | (s1, none, es) =>
    let (s2, es2) := logError s1 issueKey
    (s2, es ++ es2)
  | (s1, some true, es) => (s1, es)
  | (s1, some false, es) =>
    match callGetIssue env s1 issueKey with
    | (s2, false, es2) =>
      let (s3, es3) := logError s2 issueKey
      (s3, es ++ es2 ++ es3)
    | (s2, true, es2) =>
      let targetStatusId :=
        if a.action = .fix then config.fixStatusId else config.closeStatusId
      let label := if a.action = .fix then actionLabel .fix else actionLabel .close
      match callUpdateIssueStatus env s2 issueKey targetStatusId with
      | (s3, false, es3) =>
        let (s4, es4) := logError s3 issueKey
        (s4, es ++ es2 ++ es3 ++ es4)
      | (s3, true, es3) =>
        match callAddComment env s3 issueKey (mergedComment pr label) with
        | (s4, false, es4) =>
          let (s5, es5) := logError s4 issueKey
          (s5, es ++ es2 ++ es3 ++ es4 ++ es5)
        | (s4, true, es4) =>
          match addMergeMarkerToDescription env s4 pr.number config.backlog.host
              issueKey label with
          | (s5, none, es5) =>
            let (s6, es6) := logError s5 issueKey
            (s6, es ++ es2 ++ es3 ++ es4 ++ es5 ++ es6)
          | (s5, some _, es5) => (s5, es ++ es2 ++ es3 ++ es4 ++ es5)

/-- Model of `handlePullRequestMerged` (`index.ts`): parse the annotations from
title and body and process each one. -/
def handlePullRequestMerged (env : Env) (pr : PullRequestInfo)
    (config : ActionConfig) (s : SyncState) : SyncState × List Entry :=
  let textToSearch := pr.title ++ str "\n" ++ pr.body
  let anns := parseAnnotations textToSearch
  runBatch (processAnnot env pr config) s anns

/-!
## Configuration loading (`getConfig`, `index.ts`)
-/

/-- JavaScript `parseInt(s, 10)`: skip whitespace, optional sign, then
the longest digit run; `none` models `NaN` (no digits). -/
def jsParseInt (s : Str) : Option Int :=
  let t := s.dropWhile isSpaceCh
  let (sign, t2) : Int × Str := match t with
    | '-' :: r => (-1, r)
    | '+' :: r => (1, r)
    | _ => (1, t)
  let ds := t2.takeWhile isDigitCh
  if ds = [] then none
  else some (sign * (ds.foldl (fun n c => n * 10 + ((c.toNat : Int) - 48)) 0))

/-- JavaScript `a || b` on strings: the empty string is falsy. -/
def jsOr (a b : Str) : Str := if a = [] then b else a

/-- Model of `core.getInput(name)` without options: the raw input (empty when
absent), trimmed. -/
def getInputOpt (inputs : String → Str) (name : String) : Str :=
  jsTrim (inputs name)

/-- Model of `core.getInput(name, { required: true })`: throws when the raw value
is empty, otherwise returns it trimmed. -/
def getInputReq (inputs : String → Str) (name : String) : Except Unit Str :=
  if inputs name = [] then .error () else .ok (jsTrim (inputs name))

/-- Model of `core.getBooleanInput(name)`: accepts the YAML 1.2 core-schema
booleans of @actions/core, throws otherwise. -/
def getBooleanInput (inputs : String → Str) (name : String) : Except Unit Bool :=
  let v := getInputOpt inputs name
  if v = str "true" ∨ v = str "True" ∨ v = str "TRUE" then .ok true
  else if v = str "false" ∨ v = str "False" ∨ v = str "FALSE" then .ok false
  else .error ()

/-- Model of `getConfig` (`index.ts`): read the required credentials, the two
booleans, and the two status ids where a missing/empty input falls back
to the hard-coded default before `parseInt(_, 10)`. -/
def getConfig (inputs : String → Str) : Except Unit ActionConfig := do
  let host ← getInputReq inputs "backlog_host"
  let apiKey ← getInputReq inputs "backlog_api_key"
  let token ← getInputReq inputs "github_token"
  let addC ← getBooleanInput inputs "add_comment"
  let upd ← getBooleanInput inputs "update_status_on_merge"
  pure
    { backlog := { host := host, apiKey := apiKey }
      githubToken := token
      addComment := addC
      updateStatusOnMerge := upd
      fixStatusId := jsParseInt (jsOr (getInputOpt inputs "fix_status_id") (str "3"))
      closeStatusId := jsParseInt (jsOr (getInputOpt inputs "close_status_id") (str "4")) }

/-!
## Trace observations
-/

/-- A write to the PR description (the only way a tracking marker is
persisted in this variant). -/
def isMarkerWrite : Entry → Bool
  | (.updatePRBody _ _, _) => true
  | _ => false

/-- A successful tracker comment post for `k`. -/
def isOkComment (k : Str) : Entry → Bool
  | (.addComment k2 _, ok) => ok && k2 == k
  | _ => false

/-- A successful tracker status update for `k`. -/
def isOkStatus (k : Str) : Entry → Bool
  | (.updateIssueStatus k2 _, ok) => ok && k2 == k
  | _ => false

/-- Any tracker comment-post attempt for `k`. -/
def isCommentTo (k : Str) : Entry → Bool
  | (.addComment k2 _, _) => k2 == k
  | _ => false

/-- Any tracker comment-post attempt. -/
def isCommentCall : Entry → Bool
  | (.addComment _ _, _) => true
  | _ => false

/-- The key and status id of a status-update attempt. -/
def statusTarget : Entry → Option (Str × Option Int)
  | (.updateIssueStatus k sid, _) => some (k, sid)
  | _ => none

/-- Any tracker status-update attempt. -/
def isStatusCall : Entry → Bool := fun e => (statusTarget e).isSome

/-!
## Specification-side definitions

These two definitions follow the words of the specification (first-wins
deduplication) and are compared against the source-derived loops.
-/

/-- First-wins deduplication of a key list, as the spec words it: keep
the first occurrence, silently drop all later occurrences of the same
key. -/
def firstWinsKey : List Str → List Str
  | [] => []
  | k :: t =>
    k :: firstWinsKey (t.filter (fun x => x != k))
termination_by l => l.length
decreasing_by
  have := List.length_filter_le (fun x => x != k) t
  simp only [List.length_cons]
  omega

/-- First-wins deduplication of an annotation list by normalized issue
key, as the spec words it: keep the first annotation for a key, silently
drop all later annotations for the same key even when their action
differs. -/
def firstWinsByKey : List ParsedAnnot → List ParsedAnnot
  | [] => []
  | a :: t =>
    a :: firstWinsByKey (t.filter (fun b => b.issueKey != a.issueKey))
termination_by l => l.length
decreasing_by
  have := List.length_filter_le (fun b => b.issueKey != a.issueKey) t
  simp only [List.length_cons]
  omega

/-!
## Concrete fixtures
-/

/-- An environment where every call succeeds and every issue exists. -/
def envAll : Env := { ok := fun _ => true, hasIssue := fun _ => true }

/-- The merged PR of the end-to-end example: title `fixes PROJ-123`,
empty body. -/
def prMergedEx : PullRequestInfo :=
  { number := 1, title := str "fixes PROJ-123", body := [],
    url := str "https://github.com/o/r/pull/1", isDraft := false, merged := true }

/-- The configuration of the end-to-end example: status ids fix = 3,
close = 4. -/
def cfgEx : ActionConfig :=
  { backlog := { host := str "example.backlog.com", apiKey := str "k" }
    githubToken := str "t", addComment := true, updateStatusOnMerge := true
    fixStatusId := some 3, closeStatusId := some 4 }

example :
    ((handlePullRequestMerged envAll prMergedEx cfgEx ⟨[], 0⟩).2.filter isStatusCall) =
      [(.updateIssueStatus (str "PROJ-123") (some 3), true)] := by decide
example :
    ((handlePullRequestMerged envAll prMergedEx cfgEx ⟨[], 0⟩).2.countP isCommentCall) = 1 := by
  decide
example :
    ((handlePullRequestOpened envAll
        { number := 2, title := str "PROJ-9", body := [],
          url := str "u", isDraft := false, merged := false }
        (str "example.backlog.com")
        ⟨buildBacklogLinkMarker (str "PROJ-9"), 0⟩).2.countP (isCommentTo (str "PROJ-9"))) =
      0 := by decide

/-!
## Substring lemmas
-/

theorem hasPre_refl (b : Str) : hasPre b b = true := by
  induction b with
  | nil => rfl
  | cons c t ih => simp [hasPre, ih]

theorem hasPre_append {m h : Str} (x : Str) (hp : hasPre m h = true) :
    hasPre m (h ++ x) = true := by
  induction m generalizing h with
  | nil => rfl
  | cons a as ih =>
    cases h with
    | nil => simp [hasPre] at hp
    | cons b bs =>
      simp only [hasPre, Bool.and_eq_true] at hp ⊢
      exact ⟨hp.1, ih hp.2⟩

theorem containsSub_suffix (a b : Str) : containsSub (a ++ b) b = true := by
  induction a with
  | nil =>
    cases b with
    | nil => rfl
    | cons c t => simp [containsSub, hasPre_refl]
  | cons c t ih => simp [containsSub, ih]

theorem containsSub_append_left {a m : Str} (x : Str)
    (hc : containsSub a m = true) : containsSub (a ++ x) m = true := by
  induction a with
  | nil =>
    cases m with
    | nil =>
      cases x with
      | nil => rfl
      | cons c t => simp [containsSub, hasPre]
    | cons c t => simp [containsSub, hasPre] at hc
  | cons c t ih =>
    simp only [containsSub, Bool.or_eq_true] at hc
    rcases hc with hc | hc
    · have h2 := hasPre_append x hc
      simp only [List.cons_append] at h2
      simp [containsSub, h2]
    · simp [containsSub, ih hc]

/-!
## First-wins deduplication lemmas
-/

theorem contains_append_one {α : Type} [BEq α] (l : List α) (k x : α) :
    (l ++ [k]).contains x = (l.contains x || x == k) := by
  induction l with
  | nil => simp [List.contains]
  | cons a t ih =>
    simp only [List.cons_append, List.contains_cons] at *
    rw [ih]
    cases x == a <;> simp

theorem dedupKeysAux_eq (l : List Str) :
    ∀ seen, dedupKeysAux seen l =
      firstWinsKey (l.filter (fun x => !(seen.contains x))) := by
  induction l with
  | nil => intro seen; simp [dedupKeysAux, firstWinsKey]
  | cons a t ih =>
    intro seen
    by_cases hm : seen.contains a = true
    · simp only [dedupKeysAux, hm, if_true, List.filter_cons, Bool.not_true,
        Bool.false_eq_true, if_false]
      exact ih seen
    · rw [Bool.not_eq_true] at hm
      simp only [dedupKeysAux, hm, Bool.false_eq_true, if_false, List.filter_cons,
        Bool.not_false, if_true]
      rw [firstWinsKey, ih (seen ++ [a]), List.filter_filter]
      have hfe : List.filter (fun x => !(seen ++ [a]).contains x) t =
          List.filter (fun x => x != a && !(seen.contains x)) t := by
        apply List.filter_congr
        intro x _
        rw [contains_append_one]
        by_cases hx : x = a
        · subst hx; simp
        · cases hs : seen.contains x <;> simp [hx, hs, beq_iff_eq, bne]
      rw [hfe]

theorem dedupAnnsAux_eq (l : List ParsedAnnot) :
    ∀ seen, dedupAnnsAux seen l =
      firstWinsByKey (l.filter (fun b => !(seen.contains b.issueKey))) := by
  induction l with
  | nil => intro seen; simp [dedupAnnsAux, firstWinsByKey]
  | cons a t ih =>
    intro seen
    by_cases hm : seen.contains a.issueKey = true
    · simp only [dedupAnnsAux, hm, if_true, List.filter_cons, Bool.not_true,
        Bool.false_eq_true, if_false]
      exact ih seen
    · rw [Bool.not_eq_true] at hm
      simp only [dedupAnnsAux, hm, Bool.false_eq_true, if_false, List.filter_cons,
        Bool.not_false, if_true]
      rw [firstWinsByKey, ih (seen ++ [a.issueKey]), List.filter_filter]
      have hfe : List.filter (fun b => !(seen ++ [a.issueKey]).contains b.issueKey) t =
          List.filter (fun b => b.issueKey != a.issueKey && !(seen.contains b.issueKey)) t := by
        apply List.filter_congr
        intro x _
        rw [contains_append_one]
        by_cases hx : x.issueKey = a.issueKey
        · rw [hx]; simp
        · cases hs : seen.contains x.issueKey <;> simp [hx, hs, beq_iff_eq, bne]
      rw [hfe]

theorem filter_true_id {α : Type} (l : List α) : l.filter (fun _ => !false) = l := by
  induction l with
  | nil => rfl
  | cons a t ih => simp [List.filter_cons, ih]

theorem extractIssueKeys_eq_firstWins (t : Str) :
    extractIssueKeys t = firstWinsKey (scanKeysAux 0 none t) := by
  by_cases ht : t = []
  · subst ht; simp [extractIssueKeys, scanKeysAux, firstWinsKey]
  · unfold extractIssueKeys
    rw [if_neg ht, dedupKeysAux_eq]
    congr 1
    have : ∀ l : List Str, l.filter (fun x => !(List.contains [] x)) = l := by
      intro l
      induction l with
      | nil => rfl
      | cons a t2 ih => simp [List.filter_cons, ih, List.contains]
    exact this _

theorem parseAnnotations_eq_firstWins (t : Str) :
    parseAnnotations t = firstWinsByKey (scanAnnsAux 0 none t) := by
  by_cases ht : t = []
  · subst ht; simp [parseAnnotations, scanAnnsAux, firstWinsByKey]
  · unfold parseAnnotations
    rw [if_neg ht, dedupAnnsAux_eq]
    congr 1
    have : ∀ l : List ParsedAnnot, l.filter (fun b => !(List.contains [] b.issueKey)) = l := by
      intro l
      induction l with
      | nil => rfl
      | cons a t2 ih => simp [List.filter_cons, ih, List.contains]
    exact this _

theorem mem_firstWinsKey : ∀ (l : List Str) (x : Str), x ∈ firstWinsKey l → x ∈ l := by
  intro l
  induction l using firstWinsKey.induct with
  | case1 => intro x h; rw [firstWinsKey] at h; exact absurd h (List.not_mem_nil x)
  | case2 k t ih =>
    intro x h
    rw [firstWinsKey] at h
    rcases List.mem_cons.mp h with h | h
    · exact h ▸ List.mem_cons_self k t
    · exact List.mem_cons_of_mem k (List.mem_of_mem_filter (ih x h))

theorem firstWinsKey_nodup : ∀ l : List Str, (firstWinsKey l).Nodup := by
  intro l
  induction l using firstWinsKey.induct with
  | case1 => rw [firstWinsKey]; exact List.nodup_nil
  | case2 k t ih =>
    rw [firstWinsKey]
    refine List.nodup_cons.mpr ⟨?_, ih⟩
    intro hk
    have := List.of_mem_filter (mem_firstWinsKey _ _ hk)
    simp at this

theorem toNat_ofNat_lt {n : Nat} (h : n < 55296) : (Char.ofNat n).toNat = n := by
  unfold Char.ofNat
  rw [dif_pos (Or.inl h)]
  rfl

theorem toUpperCh_not_lower (c : Char) :
    (97 ≤ (toUpperCh c).toNat && (toUpperCh c).toNat ≤ 122) = false := by
  unfold toUpperCh
  by_cases h : (97 ≤ c.toNat && c.toNat ≤ 122) = true
  · simp only [h, if_true]
    simp only [Bool.and_eq_true, decide_eq_true_eq] at h
    rw [toNat_ofNat_lt (by omega)]
    have h2 : ¬ (97 ≤ c.toNat - 32) := by omega
    simp [h2]
  · simp only [Bool.not_eq_true] at h
    simp only [h, Bool.false_eq_true, if_false]

theorem scanKeysAux_mem_shape :
    ∀ (cs : Str) (skip : Nat) (prev : Option Char) (x : Str),
      x ∈ scanKeysAux skip prev cs → ∃ m, x = toUpperStr m := by
  intro cs
  induction cs with
  | nil => intro skip prev x h; simp [scanKeysAux] at h
  | cons c rest ih =>
    intro skip prev x h
    match skip with
    | skip' + 1 => exact ih _ _ _ h
    | 0 =>
      rw [scanKeysAux] at h
      by_cases hb : prevBlocks prev = true
      · rw [if_pos hb] at h
        exact ih _ _ _ h
      · rw [if_neg hb] at h
        cases hm : matchKeyCore (c :: rest) with
        | some p =>
          rw [hm] at h
          rcases List.mem_cons.mp h with h | h
          · exact ⟨p.1, h⟩
          · exact ih _ _ _ h
        | none =>
          rw [hm] at h
          exact ih _ _ _ h

/-!
## Longer-run rejection lemmas (issue-key pattern)
-/

theorem takeWhile_all_append {p : Char → Bool} :
    ∀ (a b : Str), (∀ x ∈ a, p x = true) →
      (a ++ b).takeWhile p = a ++ b.takeWhile p := by
  intro a
  induction a with
  | nil => intro b _; simp
  | cons c t ih =>
    intro b h
    have hc : p c = true := h c (List.mem_cons_self c t)
    simp only [List.cons_append, List.takeWhile_cons, hc, if_true]
    rw [ih b (fun x hx => h x (List.mem_cons_of_mem _ hx))]

theorem dropWhile_all_append {p : Char → Bool} :
    ∀ (a b : Str), (∀ x ∈ a, p x = true) →
      (a ++ b).dropWhile p = b.dropWhile p := by
  intro a
  induction a with
  | nil => intro b _; simp
  | cons c t ih =>
    intro b h
    have hc : p c = true := h c (List.mem_cons_self c t)
    simp only [List.cons_append, List.dropWhile_cons, hc, if_true]
    exact ih b (fun x hx => h x (List.mem_cons_of_mem _ hx))

/-- A candidate whose digit run (abutting a well-formed prefix) is seven
or more digits long is rejected outright: the greedy digit run combined
with the `(?!\d)` lookahead leaves no admissible match. -/
theorem matchKeyCore_digit_run (c : Char) (ks ds t : Str)
    (hc : isKeyLetter c = true)
    (hks : ∀ x ∈ ks, isKeyAlpha x = true)
    (hds : ∀ x ∈ ds, isDigitCh x = true)
    (hlen : 7 ≤ ds.length) :
    matchKeyCore (c :: (ks ++ '-' :: (ds ++ t))) = none := by
  have hdash : isKeyAlpha '-' = false := by decide
  have h1 : (ks ++ '-' :: (ds ++ t)).takeWhile isKeyAlpha = ks := by
    rw [takeWhile_all_append _ _ hks]
    simp [List.takeWhile_cons, hdash]
  have h2 : (ks ++ '-' :: (ds ++ t)).dropWhile isKeyAlpha = '-' :: (ds ++ t) := by
    rw [dropWhile_all_append _ _ hks]
    simp [List.dropWhile_cons, hdash]
  unfold matchKeyCore
  simp only [hc, if_true, h1, h2]
  by_cases h24 : ks.length ≤ 24
  · rw [if_pos h24]
    have h3 : (ds ++ t).takeWhile isDigitCh = ds ++ t.takeWhile isDigitCh :=
      takeWhile_all_append _ _ hds
    have h4 : ¬ ((ds ++ t).takeWhile isDigitCh).length ≤ 6 := by
      rw [h3]
      simp only [List.length_append]
      omega
    simp [h4]
  · rw [if_neg h24]

/-- A position whose preceding character is in the word class can never
start a match: the lookbehind makes the scanner skip it. -/
theorem scanKeysAux_blocked (p c : Char) (rest : Str) (hp : isKeyAlpha p = true) :
    scanKeysAux 0 (some p) (c :: rest) = scanKeysAux 0 (some c) rest := by
  rw [scanKeysAux]
  simp [prevBlocks, hp]

theorem getElem?_any_false {p : Entry → Bool} {l : List Entry}
    (h : ∀ e ∈ l, p e = false) (i : Nat) : (l[i]?).any p = false := by
  cases hg : l[i]? with
  | none => rfl
  | some e =>
    have hm : e ∈ l := List.getElem?_mem hg
    simp [Option.any, h e hm]

/-- Exhaustive description of one workflow-A item: the item always emits
at least one event, warnings name its own key, tracker comments go only
to its own key, the PR description only ever grows by a suffix, a
pre-existing link marker suppresses every tracker comment, and a marker
write is always preceded (strictly) by a successful tracker comment for
the key. -/
theorem processKeyA_item (env : Env) (pr : PullRequestInfo) (host : Str)
    (s : SyncState) (key : Str) :
    ((processKeyA env pr host s key).2 ≠ []) ∧
    (∀ k b, (BCall.warnMsg k, b) ∈ (processKeyA env pr host s key).2 → k = key) ∧
    (∀ e ∈ (processKeyA env pr host s key).2, isCommentCall e = true →
      isCommentTo key e = true) ∧
    (∃ x, (processKeyA env pr host s key).1.prBody = s.prBody ++ x) ∧
    (containsSub s.prBody (buildBacklogLinkMarker key) = true →
      ∀ e ∈ (processKeyA env pr host s key).2, isCommentCall e = false) ∧
    (∀ i, (((processKeyA env pr host s key).2.get? i).any isMarkerWrite) = true →
      (((processKeyA env pr host s key).2.take i).any (isOkComment key)) = true) := by
  cases h1 : env.ok s.nCalls with
  | false =>
    simp [processKeyA, hasBacklogLinkM, addBacklogLinkToDescription, callGetPRBody,
      callIssueExists, callAddComment, callUpdatePRBody, netCall, logWarn, h1,
      isCommentCall, isCommentTo, isMarkerWrite, isOkComment]
    intro i h
    rw [getElem?_any_false (by simp [isMarkerWrite]) i] at h
    exact absurd h (by simp)
  | true =>
    cases hm : containsSub s.prBody (buildBacklogLinkMarker key) with
    | true =>
      simp [processKeyA, hasBacklogLinkM, addBacklogLinkToDescription, callGetPRBody,
        callIssueExists, callAddComment, callUpdatePRBody, netCall, logWarn, h1, hm,
        isCommentCall, isCommentTo, isMarkerWrite, isOkComment]
      intro i h
      rw [getElem?_any_false (by simp [isMarkerWrite]) i] at h
      exact absurd h (by simp)
    | false =>
      cases h2 : env.ok (s.nCalls + 1) with
      | false =>
        simp [processKeyA, hasBacklogLinkM, addBacklogLinkToDescription, callGetPRBody,
          callIssueExists, callAddComment, callUpdatePRBody, netCall, logWarn, h1, hm, h2,
          isCommentCall, isCommentTo, isMarkerWrite, isOkComment]
        intro i h
        rw [getElem?_any_false (by simp [isMarkerWrite]) i] at h
        exact absurd h (by simp)
      | true =>
        cases hi : env.hasIssue key with
        | false =>
          simp [processKeyA, hasBacklogLinkM, addBacklogLinkToDescription, callGetPRBody,
            callIssueExists, callAddComment, callUpdatePRBody, netCall, logWarn, h1, hm, h2,
            hi, isCommentCall, isCommentTo, isMarkerWrite, isOkComment]
          intro i h
          rw [getElem?_any_false (by simp [isMarkerWrite]) i] at h
          exact absurd h (by simp)
        | true =>
          cases h3 : env.ok (s.nCalls + 2) with
          | false =>
            simp [processKeyA, hasBacklogLinkM, addBacklogLinkToDescription, callGetPRBody,
              callIssueExists, callAddComment, callUpdatePRBody, netCall, logWarn, h1, hm,
              h2, hi, h3, isCommentCall, isCommentTo, isMarkerWrite, isOkComment]
            intro i h
            rw [getElem?_any_false (by simp [isMarkerWrite]) i] at h
            exact absurd h (by simp)
          | true =>
            cases h4 : env.ok (s.nCalls + 3) with
            | false =>
              simp [processKeyA, hasBacklogLinkM, addBacklogLinkToDescription, callGetPRBody,
                callIssueExists, callAddComment, callUpdatePRBody, netCall, logWarn, h1, hm,
                h2, hi, h3, h4, isCommentCall, isCommentTo, isMarkerWrite, isOkComment]
              intro i h
              rw [getElem?_any_false (by simp [isMarkerWrite]) i] at h
              exact absurd h (by simp)
            | true =>
              cases h5 : env.ok (s.nCalls + 4) with
              | false =>
                simp [processKeyA, hasBacklogLinkM, addBacklogLinkToDescription,
                  callGetPRBody, callIssueExists, callAddComment, callUpdatePRBody, netCall,
                  logWarn, h1, hm, h2, hi, h3, h4, h5, isCommentCall, isCommentTo,
                  isMarkerWrite, isOkComment]
                intro i h
                rcases i with _ | _ | _ | _ | _ | _ | i
                · simp [isMarkerWrite] at h
                · simp [isMarkerWrite] at h
                · simp [isMarkerWrite] at h
                · simp [isMarkerWrite] at h
                · exact ⟨BCall.addComment key (openedComment pr), Or.inr ⟨by simp, by simp⟩⟩
                · simp [isMarkerWrite] at h
                · simp at h
              | true =>
                simp [processKeyA, hasBacklogLinkM, addBacklogLinkToDescription,
                  callGetPRBody, callIssueExists, callAddComment, callUpdatePRBody, netCall,
                  logWarn, h1, hm, h2, hi, h3, h4, h5, isCommentCall, isCommentTo,
                  isMarkerWrite, isOkComment]
                intro i h
                rcases i with _ | _ | _ | _ | _ | i
                · simp [isMarkerWrite] at h
                · simp [isMarkerWrite] at h
                · simp [isMarkerWrite] at h
                · simp [isMarkerWrite] at h
                · exact ⟨BCall.addComment key (openedComment pr), Or.inr ⟨by simp, by simp⟩⟩
                · simp at h

/-- Exhaustive description of one workflow-B item: the item always emits
at least one event, error reports name its own key, every status-update
attempt targets the annotation's key with the action-mapped configured
status id, and a marker write is always preceded (strictly) by a
successful status update and a successful confirmation comment for the
key. -/
theorem processAnnot_item (env : Env) (pr : PullRequestInfo) (config : ActionConfig)
    (s : SyncState) (a : ParsedAnnot) :
    ((processAnnot env pr config s a).2 ≠ []) ∧
    (∀ k b, (BCall.errorMsg k, b) ∈ (processAnnot env pr config s a).2 → k = a.issueKey) ∧
    (∀ e ∈ (processAnnot env pr config s a).2, statusTarget e = none ∨
      statusTarget e = some (a.issueKey,
        if a.action = .fix then config.fixStatusId else config.closeStatusId)) ∧
    (∀ i, (((processAnnot env pr config s a).2[i]?).any isMarkerWrite) = true →
      (((processAnnot env pr config s a).2.take i).any (isOkStatus a.issueKey)) = true ∧
      (((processAnnot env pr config s a).2.take i).any (isOkComment a.issueKey)) = true) := by
  cases h1 : env.ok s.nCalls with
  | false =>
    simp [processAnnot, hasMergeMarkerM, addMergeMarkerToDescription, callGetPRBody,
      callGetIssue, callAddComment, callUpdatePRBody, callUpdateIssueStatus, netCall,
      logError, h1, statusTarget, isMarkerWrite, isOkStatus, isOkComment]
    intro i h
    rw [getElem?_any_false (by simp [isMarkerWrite]) i] at h
    exact absurd h (by simp)
  | true =>
    cases hm : containsSub s.prBody (buildMergeMarker a.issueKey) with
    | true =>
      simp [processAnnot, hasMergeMarkerM, addMergeMarkerToDescription, callGetPRBody,
        callGetIssue, callAddComment, callUpdatePRBody, callUpdateIssueStatus, netCall,
        logError, h1, hm, statusTarget, isMarkerWrite, isOkStatus, isOkComment]
      intro i h
      rw [getElem?_any_false (by simp [isMarkerWrite]) i] at h
      exact absurd h (by simp)
    | false =>
      cases h2 : env.ok (s.nCalls + 1) with
      | false =>
        simp [processAnnot, hasMergeMarkerM, addMergeMarkerToDescription, callGetPRBody,
          callGetIssue, callAddComment, callUpdatePRBody, callUpdateIssueStatus, netCall,
          logError, h1, hm, h2, statusTarget, isMarkerWrite, isOkStatus, isOkComment]
        intro i h
        rw [getElem?_any_false (by simp [isMarkerWrite]) i] at h
        exact absurd h (by simp)
      | true =>
        cases hi : env.hasIssue a.issueKey with
        | false =>
          simp [processAnnot, hasMergeMarkerM, addMergeMarkerToDescription, callGetPRBody,
            callGetIssue, callAddComment, callUpdatePRBody, callUpdateIssueStatus, netCall,
            logError, h1, hm, h2, hi, statusTarget, isMarkerWrite, isOkStatus, isOkComment]
          intro i h
          rw [getElem?_any_false (by simp [isMarkerWrite]) i] at h
          exact absurd h (by simp)
        | true =>
          cases h3 : env.ok (s.nCalls + 2) with
          | false =>
            simp [processAnnot, hasMergeMarkerM, addMergeMarkerToDescription, callGetPRBody,
              callGetIssue, callAddComment, callUpdatePRBody, callUpdateIssueStatus, netCall,
              logError, h1, hm, h2, hi, h3, statusTarget, isMarkerWrite, isOkStatus,
              isOkComment]
            intro i h
            rw [getElem?_any_false (by simp [isMarkerWrite]) i] at h
            exact absurd h (by simp)
          | true =>
            cases h4 : env.ok (s.nCalls + 3) with
            | false =>
              simp [processAnnot, hasMergeMarkerM, addMergeMarkerToDescription,
                callGetPRBody, callGetIssue, callAddComment, callUpdatePRBody,
                callUpdateIssueStatus, netCall, logError, h1, hm, h2, hi, h3, h4,
                statusTarget, isMarkerWrite, isOkStatus, isOkComment]
              intro i h
              rw [getElem?_any_false (by simp [isMarkerWrite]) i] at h
              exact absurd h (by simp)
            | true =>
              cases h5 : env.ok (s.nCalls + 4) with
              | false =>
                simp [processAnnot, hasMergeMarkerM, addMergeMarkerToDescription,
                  callGetPRBody, callGetIssue, callAddComment, callUpdatePRBody,
                  callUpdateIssueStatus, netCall, logError, h1, hm, h2, hi, h3, h4, h5,
                  statusTarget, isMarkerWrite, isOkStatus, isOkComment]
                intro i h
                rw [getElem?_any_false (by simp [isMarkerWrite]) i] at h
                exact absurd h (by simp)
              | true =>
                cases h6 : env.ok (s.nCalls + 5) with
                | false =>
                  simp [processAnnot, hasMergeMarkerM, addMergeMarkerToDescription,
                    callGetPRBody, callGetIssue, callAddComment, callUpdatePRBody,
                    callUpdateIssueStatus, netCall, logError, h1, hm, h2, hi, h3, h4, h5,
                    h6, statusTarget, isMarkerWrite, isOkStatus, isOkComment]
                  intro i h
                  rcases i with _ | _ | _ | _ | _ | _ | _ | i
                  · simp [isMarkerWrite] at h
                  · simp [isMarkerWrite] at h
                  · simp [isMarkerWrite] at h
                  · simp [isMarkerWrite] at h
                  · simp [isMarkerWrite] at h
                  · constructor
                    · exact ⟨BCall.updateIssueStatus a.issueKey
                        (if a.action = .fix then config.fixStatusId else config.closeStatusId),
                        Or.inr ⟨by simp, by simp⟩⟩
                    · exact ⟨BCall.addComment a.issueKey
                        (mergedComment pr (if a.action = .fix then actionLabel .fix
                          else actionLabel .close)),
                        Or.inr ⟨by simp, by simp⟩⟩
                  · simp [isMarkerWrite] at h
                  · simp at h
                | true =>
                  simp [processAnnot, hasMergeMarkerM, addMergeMarkerToDescription,
                    callGetPRBody, callGetIssue, callAddComment, callUpdatePRBody,
                    callUpdateIssueStatus, netCall, logError, h1, hm, h2, hi, h3, h4, h5,
                    h6, statusTarget, isMarkerWrite, isOkStatus, isOkComment]
                  intro i h
                  rcases i with _ | _ | _ | _ | _ | _ | i
                  · simp [isMarkerWrite] at h
                  · simp [isMarkerWrite] at h
                  · simp [isMarkerWrite] at h
                  · simp [isMarkerWrite] at h
                  · simp [isMarkerWrite] at h
                  · constructor
                    · exact ⟨BCall.updateIssueStatus a.issueKey
                        (if a.action = .fix then config.fixStatusId else config.closeStatusId),
                        Or.inr ⟨by simp, by simp⟩⟩
                    · exact ⟨BCall.addComment a.issueKey
                        (mergedComment pr (if a.action = .fix then actionLabel .fix
                          else actionLabel .close)),
                        Or.inr ⟨by simp, by simp⟩⟩
                  · simp at h

/-- A batch run concatenates one trace segment per item, and any property
guaranteed by the step for its own item holds of that item's segment. -/
theorem runBatch_join {α : Type} (step : SyncState → α → SyncState × List Entry)
    (P : α → List Entry → Prop)
    (hstep : ∀ s a, P a (step s a).2) :
    ∀ (l : List α) (s : SyncState), ∃ Δs : List (List Entry),
      (runBatch step s l).2 = Δs.flatten ∧ Δs.length = l.length ∧
      ∀ p ∈ l.zip Δs, P p.1 p.2 := by
  intro l
  induction l with
  | nil => intro s; exact ⟨[], rfl, rfl, by simp⟩
  | cons a t ih =>
    intro s
    obtain ⟨Δs, h1, h2, h3⟩ := ih (step s a).1
    refine ⟨(step s a).2 :: Δs, ?_, ?_, ?_⟩
    · simp [runBatch, h1]
    · simp [h2]
    · intro p hp
      rcases List.mem_cons.mp hp with hp | hp
    
      · rw [hp]; exact hstep s a
      · exact h3 p hp

theorem isCommentTo_false_of_not_call {K : Str} {e : Entry}
    (h : isCommentCall e = false) : isCommentTo K e = false := by
  rcases e with ⟨c, b⟩
  cases c <;> simp_all [isCommentCall, isCommentTo]

theorem isCommentTo_false_of_other {k K : Str} {e : Entry} (hk : ¬ k = K)
    (h : isCommentTo k e = true) : isCommentTo K e = false := by
  rcases e with ⟨c, b⟩
  cases c with
  | addComment k2 content =>
    simp only [isCommentTo, beq_iff_eq] at h
    simp only [isCommentTo, beq_eq_false_iff_ne, ne_eq]
    subst h
    exact hk
  | getPRBody n => simp [isCommentTo] at h
  | updatePRBody n body => simp [isCommentTo] at h
  | issueExists k2 => simp [isCommentTo] at h
  | getIssue k2 => simp [isCommentTo] at h
  | updateIssueStatus k2 sid => simp [isCommentTo] at h
  | warnMsg k2 => simp [isCommentTo] at h
  | errorMsg k2 => simp [isCommentTo] at h

/-- Workflow-A batch invariant: while the link marker for `K` is embedded
in the PR description, no tracker comment for `K` is ever attempted, and
the marker stays embedded. -/
theorem runBatchA_no_comment (env : Env) (pr : PullRequestInfo) (host : Str) (K : Str) :
    ∀ (keys : List Str) (s : SyncState),
      containsSub s.prBody (buildBacklogLinkMarker K) = true →
      ((runBatch (processKeyA env pr host) s keys).2.countP (isCommentTo K)) = 0 := by
  intro keys
  induction keys with
  | nil => intro s _; simp [runBatch]
  | cons k t ih =>
    intro s h
    obtain ⟨_, _, hc, ⟨x, hx⟩, hd, _⟩ := processKeyA_item env pr host s k
    have hmono : containsSub ((processKeyA env pr host s k).1.prBody)
        (buildBacklogLinkMarker K) = true := by
      rw [hx]; exact containsSub_append_left x h
    have hcount : ((processKeyA env pr host s k).2.countP (isCommentTo K)) = 0 := by
      apply List.countP_eq_zero.mpr
      intro e he
      rw [Bool.not_eq_true]
      by_cases hk : k = K
      · subst hk
        exact isCommentTo_false_of_not_call (hd h e he)
      · by_cases hcc : isCommentCall e = true
        · exact isCommentTo_false_of_other hk (hc e he hcc)
        · exact isCommentTo_false_of_not_call (Bool.not_eq_true _ ▸ hcc)
    have hsplit : (runBatch (processKeyA env pr host) s (k :: t)).2 =
        (processKeyA env pr host s k).2 ++
          (runBatch (processKeyA env pr host) (processKeyA env pr host s k).1 t).2 := by
      simp [runBatch]
    rw [hsplit, List.countP_append, hcount, ih _ hmono]

/-- A position whose preceding character is in the word class can never
start an annotation match: the leading word boundary makes the scanner
skip it. -/
theorem scanAnnsAux_blocked (p c : Char) (rest : Str) (hp : isKeyAlpha p = true) :
    scanAnnsAux 0 (some p) (c :: rest) = scanAnnsAux 0 (some c) rest := by
  rw [scanAnnsAux]
  simp [prevBlocks, hp]

/-!
## Claim theorems
-/

/-- C9: for every operation kind, issue key and text, appending
`buildMarker op key` to the text makes `containsMarker` true for
`(op, key)`.  `buildMarker` is a plain function of its two arguments, so
determinism (same inputs, identical token) is inherent to the embedding,
mirroring the effect-free template literals of the source. -/
theorem claim_C9_marker_roundtrip (t k : Str) (op : OperationKind) :
    containsMarker (t ++ buildMarker op k) op k = true :=
  containsSub_suffix t (buildMarker op k)

/-- C3: `parseAnnotations` equals the scan of all matches followed by
first-wins deduplication on the normalized issue key (later occurrences
are dropped even when the action differs), and on
`"fixes PROJ-123\nresolves PROJ-123"` it returns exactly one annotation
with action fix; on `"closes PROJ-7\nfixes PROJ-7"` the differing later
action is likewise dropped. -/
theorem claim_C3_firstwins_dedup :
    (∀ t : Str, parseAnnotations t = firstWinsByKey (scanAnnsAux 0 none t)) ∧
    parseAnnotations (str "fixes PROJ-123\nresolves PROJ-123") =
      [⟨str "PROJ-123", .fix, str "fixes PROJ-123"⟩] ∧
    parseAnnotations (str "closes PROJ-7\nfixes PROJ-7") =
      [⟨str "PROJ-7", .close, str "closes PROJ-7"⟩] :=
  ⟨parseAnnotations_eq_firstWins, by decide, by decide⟩

/-- C4: `extractIssueKeys` equals the scan of all matches (each
normalized to upper case) followed by first-wins deduplication, so its
result is duplicate-free, in first-occurrence order, contains no
lower-case letter, is empty on empty input, and satisfies the spec's
example.  It is a total function, so it never raises an error. -/
theorem claim_C4_extract_normalized :
    (∀ t : Str, extractIssueKeys t = firstWinsKey (scanKeysAux 0 none t)) ∧
    (∀ t : Str, (extractIssueKeys t).Nodup) ∧
    (∀ t : Str, ∀ x ∈ extractIssueKeys t, ∀ c ∈ x,
      (97 ≤ c.toNat && c.toNat ≤ 122) = false) ∧
    extractIssueKeys [] = [] ∧
    extractIssueKeys (str "proj-123 and PROJ-123") = [str "PROJ-123"] := by
  refine ⟨extractIssueKeys_eq_firstWins, ?_, ?_, by decide, by decide⟩
  · intro t
    rw [extractIssueKeys_eq_firstWins]
    exact firstWinsKey_nodup _
  · intro t x hx c hc
    rw [extractIssueKeys_eq_firstWins] at hx
    obtain ⟨m, rfl⟩ := scanKeysAux_mem_shape _ _ _ _ (mem_firstWinsKey _ _ hx)
    obtain ⟨c0, _, rfl⟩ := List.mem_map.mp hc
    exact toUpperCh_not_lower c0

theorem claim_C4_witness :
    (97 ≤ 'P'.toNat && 'P'.toNat ≤ 122) = false :=
  claim_C4_extract_normalized.2.2.1 (str "proj-123 and PROJ-123") (str "PROJ-123")
    (by decide) 'P' (by decide)

/-- C5: a candidate key whose digit run is immediately followed by
another digit (a run of seven or more digits) yields no match at all —
`matchKeyCore` rejects the whole candidate, not a shorter embedded key —
and a position immediately preceded by a key-alphabet character is
skipped by the scanner; in particular `"PROJ-1234567"` and
`"1PROJ-123"` yield no keys. -/
theorem claim_C5_no_partial_match :
    (∀ (c : Char) (ks ds t : Str), isKeyLetter c = true →
      (∀ x ∈ ks, isKeyAlpha x = true) → (∀ x ∈ ds, isDigitCh x = true) →
      7 ≤ ds.length → matchKeyCore (c :: (ks ++ '-' :: (ds ++ t))) = none) ∧
    (∀ (p c : Char) (rest : Str), isKeyAlpha p = true →
      scanKeysAux 0 (some p) (c :: rest) = scanKeysAux 0 (some c) rest) ∧
    extractIssueKeys (str "PROJ-1234567") = [] ∧
    extractIssueKeys (str "1PROJ-123") = [] :=
  ⟨matchKeyCore_digit_run, scanKeysAux_blocked, by decide, by decide⟩

theorem claim_C5_witness :
    matchKeyCore ('P' :: (str "ROJ" ++ '-' :: (str "1234567" ++ []))) = none ∧
    scanKeysAux 0 (some '1') ('P' :: str "ROJ-123") = scanKeysAux 0 (some 'P') (str "ROJ-123") :=
  ⟨claim_C5_no_partial_match.1 'P' (str "ROJ") (str "1234567") [] (by decide)
      (by decide) (by decide) (by decide),
   claim_C5_no_partial_match.2.1 '1' 'P' (str "ROJ-123") (by decide)⟩

/-- C6 counterexample: the text `"fixture-123"` contains the word
`fixture`, yet `parseAnnotations` yields an annotation via the `fix`
keyword (key `TURE-123`, action fix) — the annotation pattern has no
word boundary between keyword and issue key, so a keyword embedded at
the start of a longer word can match when the word's remainder parses as
separators plus a key.  This refutes the claim that an embedded keyword
never yields an annotation for any following characters. -/
theorem claim_C6_counterexample :
    parseAnnotations (str "fixture-123") =
      [⟨str "TURE-123", .fix, str "fixture-123"⟩] ∧
    ¬ parseAnnotations (str "fixture-123") = [] :=
  ⟨by decide, by decide⟩

/-- C6 (amended): keyword matching is word-bounded on the left — a
keyword occurrence immediately preceded by a word character yields no
match there — and the issue key is word-bounded on the right, but there
is no boundary between keyword and key: `"fixture PROJ-123"` yields no
annotation (the remainder `ture …` is not a key), while `"fixture-123"`
yields the annotation (fix, TURE-123) via the embedded keyword `fix`. -/
theorem claim_C6_amended :
    (∀ (p c : Char) (rest : Str), isKeyAlpha p = true →
      scanAnnsAux 0 (some p) (c :: rest) = scanAnnsAux 0 (some c) rest) ∧
    parseAnnotations (str "fixture PROJ-123") = [] ∧
    parseAnnotations (str "fixture-123") =
      [⟨str "TURE-123", .fix, str "fixture-123"⟩] :=
  ⟨scanAnnsAux_blocked, by decide, by decide⟩

theorem claim_C6_witness :
    scanAnnsAux 0 (some 'x') ('f' :: str "ix PROJ-1") =
      scanAnnsAux 0 (some 'f') (str "ix PROJ-1") :=
  claim_C6_amended.1 'x' 'f' (str "ix PROJ-1") (by decide)

/-- A PR-opened fixture used by concrete witnesses. -/
def prOpenEx : PullRequestInfo :=
  { number := 2, title := str "PROJ-9", body := [], url := str "u",
    isDraft := false, merged := false }

/-- C1: for every environment (any transport failures, any issue set),
PR, host and key `K`, when the PR description already carries the link
marker for `K`, a whole run of workflow A attempts the tracker's
comment-posting operation zero times for `K` — the marker check precedes
every side-effecting call, a present marker makes the key be skipped,
and processing of other keys only ever appends to the description, so
the marker stays present throughout the run. -/
theorem claim_C1_link_idempotent (env : Env) (pr : PullRequestInfo) (host : Str)
    (body0 K : Str)
    (h : containsSub body0 (buildBacklogLinkMarker K) = true) :
    ((handlePullRequestOpened env pr host ⟨body0, 0⟩).2.countP (isCommentTo K)) = 0 := by
  unfold handlePullRequestOpened
  exact runBatchA_no_comment env pr host K _ ⟨body0, 0⟩ h

theorem claim_C1_witness :
    ((handlePullRequestOpened envAll prOpenEx (str "example.backlog.com")
        ⟨buildBacklogLinkMarker (str "PROJ-9"), 0⟩).2.countP (isCommentTo (str "PROJ-9"))) = 0 :=
  claim_C1_link_idempotent envAll prOpenEx (str "example.backlog.com")
    (buildBacklogLinkMarker (str "PROJ-9")) (str "PROJ-9") (by decide)

/-- C2: in both workflows, for every processed item and every
environment, a write of the PR description (the only way a tracking
marker is persisted) at trace position `i` of the item's trace is
strictly preceded by the side effect it guards: in workflow A by a
successful tracker comment for the item's key, in workflow B by both a
successful status update and a successful confirmation comment for the
item's key.  No execution path writes a marker before its side effect. -/
theorem claim_C2_marker_after_side_effect :
    (∀ (env : Env) (pr : PullRequestInfo) (host : Str) (s : SyncState) (key : Str)
        (i : Nat),
      (((processKeyA env pr host s key).2.get? i).any isMarkerWrite) = true →
      (((processKeyA env pr host s key).2.take i).any (isOkComment key)) = true) ∧
    (∀ (env : Env) (pr : PullRequestInfo) (config : ActionConfig) (s : SyncState)
        (a : ParsedAnnot) (i : Nat),
      (((processAnnot env pr config s a).2[i]?).any isMarkerWrite) = true →
      (((processAnnot env pr config s a).2.take i).any (isOkStatus a.issueKey)) = true ∧
      (((processAnnot env pr config s a).2.take i).any (isOkComment a.issueKey)) = true) :=
  ⟨fun env pr host s key i => (processKeyA_item env pr host s key).2.2.2.2.2 i,
   fun env pr config s a i => (processAnnot_item env pr config s a).2.2.2 i⟩

theorem claim_C2_witness :
    ((((processKeyA envAll prOpenEx (str "h") ⟨[], 0⟩ (str "PROJ-9")).2.take 4).any
        (isOkComment (str "PROJ-9"))) = true) ∧
    ((((processAnnot envAll prMergedEx cfgEx ⟨[], 0⟩
        ⟨str "PROJ-123", .fix, str "fixes PROJ-123"⟩).2.take 5).any
        (isOkStatus (str "PROJ-123"))) = true) :=
  ⟨claim_C2_marker_after_side_effect.1 envAll prOpenEx (str "h") ⟨[], 0⟩ (str "PROJ-9") 4
      (by decide),
   (claim_C2_marker_after_side_effect.2 envAll prMergedEx cfgEx ⟨[], 0⟩
      ⟨str "PROJ-123", .fix, str "fixes PROJ-123"⟩ 5 (by decide)).1⟩

/-- C7: in both workflows, for every environment (arbitrary per-call
failures), the run's trace splits into exactly one non-empty segment per
batch item, in batch order — an error in one item is caught inside that
item's segment (reported as a warning/error naming that item's key) and
every remaining item still contributes its own segment. -/
theorem claim_C7_error_isolation :
    (∀ (env : Env) (pr : PullRequestInfo) (host : Str) (s : SyncState),
      ∃ Δs : List (List Entry),
        (handlePullRequestOpened env pr host s).2 = Δs.flatten ∧
        Δs.length = (extractIssueKeys (pr.title ++ str "\n" ++ pr.body)).length ∧
        ∀ p ∈ (extractIssueKeys (pr.title ++ str "\n" ++ pr.body)).zip Δs,
          p.2 ≠ [] ∧ ∀ k b, (BCall.warnMsg k, b) ∈ p.2 → k = p.1) ∧
    (∀ (env : Env) (pr : PullRequestInfo) (config : ActionConfig) (s : SyncState),
      ∃ Δs : List (List Entry),
        (handlePullRequestMerged env pr config s).2 = Δs.flatten ∧
        Δs.length = (parseAnnotations (pr.title ++ str "\n" ++ pr.body)).length ∧
        ∀ p ∈ (parseAnnotations (pr.title ++ str "\n" ++ pr.body)).zip Δs,
          p.2 ≠ [] ∧ ∀ k b, (BCall.errorMsg k, b) ∈ p.2 → k = p.1.issueKey) := by
  constructor
  · intro env pr host s
    unfold handlePullRequestOpened
    exact runBatch_join (processKeyA env pr host)
      (fun key Δ => Δ ≠ [] ∧ ∀ k b, (BCall.warnMsg k, b) ∈ Δ → k = key)
      (fun s2 k => ⟨(processKeyA_item env pr host s2 k).1,
        (processKeyA_item env pr host s2 k).2.1⟩) _ s
  · intro env pr config s
    unfold handlePullRequestMerged
    exact runBatch_join (processAnnot env pr config)
      (fun a Δ => Δ ≠ [] ∧ ∀ k b, (BCall.errorMsg k, b) ∈ Δ → k = a.issueKey)
      (fun s2 a => ⟨(processAnnot_item env pr config s2 a).1,
        (processAnnot_item env pr config s2 a).2.1⟩) _ s

theorem claim_C7_witness :
    ∃ Δs : List (List Entry),
      (handlePullRequestOpened envAll prOpenEx (str "h") ⟨[], 0⟩).2 = Δs.flatten ∧
      Δs.length = (extractIssueKeys (prOpenEx.title ++ str "\n" ++ prOpenEx.body)).length ∧
      ∀ p ∈ (extractIssueKeys (prOpenEx.title ++ str "\n" ++ prOpenEx.body)).zip Δs,
        p.2 ≠ [] ∧ ∀ k b, (BCall.warnMsg k, b) ∈ p.2 → k = p.1 :=
  claim_C7_error_isolation.1 envAll prOpenEx (str "h") ⟨[], 0⟩

/-- C8: every status-update attempt made while processing an annotation
targets the annotation's key with the configured fix status id when the
action is fix and the configured close status id when it is close; and
the end-to-end run on a merged PR titled `fixes PROJ-123` with empty
body and status ids {fix := 3, close := 4} performs exactly one status
update — `updateStatus("PROJ-123", 3)`, successful — and exactly one
confirmation comment. -/
theorem claim_C8_status_mapping :
    (∀ (env : Env) (pr : PullRequestInfo) (config : ActionConfig) (s : SyncState)
        (a : ParsedAnnot), ∀ e ∈ (processAnnot env pr config s a).2,
      statusTarget e = none ∨
      statusTarget e = some (a.issueKey,
        if a.action = .fix then config.fixStatusId else config.closeStatusId)) ∧
    ((handlePullRequestMerged envAll prMergedEx cfgEx ⟨[], 0⟩).2.filter isStatusCall =
      [(.updateIssueStatus (str "PROJ-123") (some 3), true)]) ∧
    ((handlePullRequestMerged envAll prMergedEx cfgEx ⟨[], 0⟩).2.countP isCommentCall = 1) :=
  ⟨fun env pr config s a => (processAnnot_item env pr config s a).2.2.1,
   by decide, by decide⟩

theorem claim_C8_witness :
    statusTarget (BCall.updateIssueStatus (str "PROJ-123") (some 3), true) = none ∨
    statusTarget (BCall.updateIssueStatus (str "PROJ-123") (some 3), true) =
      some (str "PROJ-123",
        if AnnAction.fix = AnnAction.fix then cfgEx.fixStatusId else cfgEx.closeStatusId) :=
  claim_C8_status_mapping.1 envAll prMergedEx cfgEx ⟨[], 0⟩
    ⟨str "PROJ-123", .fix, str "fixes PROJ-123"⟩
    (BCall.updateIssueStatus (str "PROJ-123") (some 3), true) (by decide)

/-- The input assignment of the C10 witness: required inputs present,
both status-id inputs absent. -/
def inputsEx : String → Str := fun name =>
  if name = "backlog_host" then str "example.backlog.com"
  else if name = "backlog_api_key" then str "k"
  else if name = "github_token" then str "t"
  else if name = "add_comment" then str "true"
  else if name = "update_status_on_merge" then str "true"
  else []

/-- C10: whenever `getConfig` succeeds, a missing or empty (after
trimming) `fix_status_id` input yields the hard-coded default
`fixStatusId = 3`, a missing or empty `close_status_id` input yields
`closeStatusId = 4`, and in general both ids are the base-10
`parseInt` of the provided input (with the default substituted for an
empty value). -/
theorem claim_C10_config_defaults (inputs : String → Str) (cfg : ActionConfig)
    (h : getConfig inputs = .ok cfg) :
    (jsTrim (inputs "fix_status_id") = [] → cfg.fixStatusId = some 3) ∧
    (jsTrim (inputs "close_status_id") = [] → cfg.closeStatusId = some 4) ∧
    cfg.fixStatusId = jsParseInt (jsOr (jsTrim (inputs "fix_status_id")) (str "3")) ∧
    cfg.closeStatusId = jsParseInt (jsOr (jsTrim (inputs "close_status_id")) (str "4")) := by
  have hfix : cfg.fixStatusId =
      jsParseInt (jsOr (jsTrim (inputs "fix_status_id")) (str "3")) ∧
      cfg.closeStatusId =
      jsParseInt (jsOr (jsTrim (inputs "close_status_id")) (str "4")) := by
    unfold getConfig at h
    cases h1 : getInputReq inputs "backlog_host" with
    | error e => rw [h1] at h; simp [Bind.bind, Except.bind] at h
    | ok host =>
      rw [h1] at h
      cases h2 : getInputReq inputs "backlog_api_key" with
      | error e => rw [h2] at h; simp [Bind.bind, Except.bind] at h
      | ok apiKey =>
        rw [h2] at h
        cases h3 : getInputReq inputs "github_token" with
        | error e => rw [h3] at h; simp [Bind.bind, Except.bind] at h
        | ok token =>
          rw [h3] at h
          cases h4 : getBooleanInput inputs "add_comment" with
          | error e => rw [h4] at h; simp [Bind.bind, Except.bind] at h
          | ok addC =>
            rw [h4] at h
            cases h5 : getBooleanInput inputs "update_status_on_merge" with
            | error e => rw [h5] at h; simp [Bind.bind, Except.bind] at h
            | ok upd =>
              rw [h5] at h
              simp only [Bind.bind, Except.bind, pure, Except.pure, Except.ok.injEq] at h
              rw [← h]
              exact ⟨rfl, rfl⟩
  refine ⟨?_, ?_, hfix.1, hfix.2⟩
  · intro he
    rw [hfix.1, he]
    decide
  · intro he
    rw [hfix.2, he]
    decide

theorem claim_C10_witness :
    (getConfig inputsEx = .ok
      { backlog := { host := str "example.backlog.com", apiKey := str "k" }
        githubToken := str "t", addComment := true, updateStatusOnMerge := true
        fixStatusId := some 3, closeStatusId := some 4 }) ∧
    ({ backlog := { host := str "example.backlog.com", apiKey := str "k" }
       githubToken := str "t", addComment := true, updateStatusOnMerge := true
       fixStatusId := some 3, closeStatusId := some 4 : ActionConfig }.fixStatusId = some 3) :=
  ⟨by rfl, (claim_C10_config_defaults inputsEx _ (by rfl)).1 (by decide)⟩
